import Mathlib

/-!
Verification development for the `actions-npm-scanner` repository.

The Go sources are shallowly embedded: Go strings become `List Char`
(`GoStr`), Go maps become association lists carrying the (unspecified)
iteration order, fallible operations return `Option`/`Except`, and the
`Masterminds/semver/v3` library functions used by the code are modelled
as executable Lean functions.  Every definition mirrors the function of
the same name in the repository (mostly `github.go`); the Go standard
library string helpers are prefixed with `go`.
-/

/-- Go strings, modelled as lists of characters. -/
abbrev GoStr := List Char

/-- Converts a Lean string literal into the Go string model. -/
def str (s : String) : GoStr := s.toList

/-- Model of Go `strings.Index` (restricted to what the code needs):
the index of the first occurrence of `sep` in the second argument,
`none` when `sep` does not occur. -/
def indexOfSub (sep : GoStr) : GoStr → Option Nat
  | [] => if sep.isPrefixOf ([] : GoStr) then some 0 else none
  | c :: rest =>
      if sep.isPrefixOf (c :: rest) then some 0
      else (indexOfSub sep rest).map (· + 1)

/-- Model of Go `strings.Contains`. -/
def goContains (s sub : GoStr) : Bool := (indexOfSub sub s).isSome

/-- Recursion core of `goSplit`.  The recursion is bounded by a fuel
argument so that the definition is structural (and hence computes inside
the kernel); every splitting step drops at least `sep.length ≥ 1`
characters, so a fuel of `s.length + 1` never runs out. -/
def goSplitAux (sep : GoStr) : Nat → GoStr → List GoStr
  | 0, s => [s]
  | fuel + 1, s =>
      match indexOfSub sep s with
      | none => [s]
      | some i => s.take i :: goSplitAux sep fuel (s.drop (i + sep.length))

/-- Model of Go `strings.Split` for a non-empty separator: the list of
substrings between non-overlapping occurrences of `sep`.  (The callers in
this repository never pass an empty separator; that case is mapped to
`[s]`.) -/
def goSplit (sep s : GoStr) : List GoStr :=
  if sep = [] then [s] else goSplitAux sep (s.length + 1) s

/-- Model of Go `strings.Join`. -/
def goJoin (sep : GoStr) : List GoStr → GoStr
  | [] => []
  | [a] => a
  | a :: b :: rest => a ++ sep ++ goJoin sep (b :: rest)

/-- Model of Go `strings.TrimSuffix`. -/
def goTrimSuffixOf (s suffix : GoStr) : GoStr :=
  if suffix.isSuffixOf s then s.take (s.length - suffix.length) else s

/-- Model of Go `strings.TrimPrefix`. -/
def goTrimPrefixOf (s pre : GoStr) : GoStr :=
  if pre.isPrefixOf s then s.drop pre.length else s

/-- ASCII white-space characters trimmed by Go `strings.TrimSpace`
(the inputs of this program are ASCII, so the Unicode cases are
irrelevant). -/
def isGoSpace (c : Char) : Bool :=
  c = ' ' || c = '\t' || c = '\n' || c = '\r' || c = '\x0b' || c = '\x0c'

/-- Model of Go `strings.TrimSpace`. -/
def goTrimSpace (s : GoStr) : GoStr :=
  ((s.dropWhile isGoSpace).reverse.dropWhile isGoSpace).reverse

/-- ASCII digit test, mirroring the comparison
`c >= '0' && c <= '9'` in `extractVersionFromResolved`. -/
def isAsciiDigit (c : Char) : Bool := '0' ≤ c && c ≤ '9'

/-- The loop of `extractVersionFromResolved` (github.go:193-199) that
searches `dashParts[1:]` for the first part starting with an ASCII digit;
returns the suffix of the list from that part on (Go then joins
`dashParts[versionStartIdx:]`, which is exactly this suffix). -/
def dropUntilDigitStart : List GoStr → Option (List GoStr)
  | [] => none
  | p :: rest =>
      if !p.isEmpty && isAsciiDigit (p.headD ' ') then some (p :: rest)
      else dropUntilDigitStart rest

/-- Model of `extractVersionFromResolved` (github.go:166-208): extracts a
version from a resolved tarball URL (registry URLs contain a
slash-dash-slash separator followed by `name-version.tgz`). -/
def extractVersionFromResolved (resolved : GoStr) : GoStr :=
  if resolved = [] then []
  else
    let parts := goSplit (str "/-/") resolved
    if parts.length < 2 then []
    else
      let filename := goTrimSuffixOf (parts.getLastD []) (str ".tgz")
      let dashParts := goSplit ['-'] filename
      if dashParts.length < 2 then []
      else
        match dropUntilDigitStart dashParts.tail with
        | none => []
        | some suffixParts => goJoin ['-'] suffixParts

/-- Model of `getActualVersion` (github.go:212-217): prefers the version
extracted from the resolved URL over the declared version. -/
def getActualVersion (declared resolved : GoStr) : GoStr :=
  let resolvedVersion := extractVersionFromResolved resolved
  if resolvedVersion ≠ [] then resolvedVersion else declared

/-!
Model of the Masterminds semver v3 library.

`github.go` delegates semantic-version parsing and range checking to the
external dependency `github.com/Masterminds/semver/v3`.  The definitions
below model that library's `NewVersion`, `Version.Compare`/`Equal`,
`NewConstraint` and `Constraints.Check` for the inputs this program
feeds it.  The constraint grammar follows the library's anchored
valid-constraint shape: comparators separated by white space or by a
comma (leading, trailing or doubled commas are malformed), each an
optional operator followed by a version; prerelease segments compare via
unsigned numeric parsing (`ParseUint`); the tilde comparator on a 0.0.0
core accepts every remaining version.  Known, deliberate restrictions of
the model (none of which is exercised by the repository or by the
claims, and all of which only shrink the set of accepted constraint
strings): wildcard components (`x`, `X`, `*`), partial constraint
versions (`^4.1`), and hyphen ranges are rejected by the modelled
parser, whereas the library accepts them with "dirty" semantics; numeric
overflow of 64-bit integers is ignored (`Nat` is unbounded).
-/

/-- Digit span: longest ASCII-digit prefix and the remainder. -/
def takeDigits (s : GoStr) : GoStr × GoStr :=
  (s.takeWhile isAsciiDigit, s.dropWhile isAsciiDigit)

/-- Decimal digits to a natural number. -/
def digitsToNat (ds : GoStr) : Nat :=
  ds.foldl (fun n c => n * 10 + (c.toNat - '0'.toNat)) 0

/-- Characters allowed inside prerelease and build-metadata segments
(the library's regular expression allows ASCII alphanumerics and
hyphens). -/
def isPreChar (c : Char) : Bool :=
  isAsciiDigit c || ('a' ≤ c && c ≤ 'z') || ('A' ≤ c && c ≤ 'Z') || c = '-'

/-- Shape of a prerelease or metadata field: dot-separated, non-empty
segments of allowed characters. -/
def segmentsOK (s : GoStr) : Bool :=
  (goSplit ['.'] s).all (fun seg => !seg.isEmpty && seg.all isPreChar)

/-- The library's `validatePrerelease`: a purely numeric prerelease
segment must not have a leading zero. -/
def preNoLeadingZeros (s : GoStr) : Bool :=
  (goSplit ['.'] s).all (fun seg =>
    if seg.all isAsciiDigit then !(decide (seg.length > 1) && seg.headD ' ' = '0')
    else true)

/-- A parsed semantic version: numeric core plus raw prerelease and
build-metadata strings (empty list = absent). -/
structure SemVersion where
  major : Nat
  minor : Nat
  patch : Nat
  pre : GoStr
  metadata : GoStr
deriving DecidableEq

/-- Parses `"." digits`, used for the optional minor and patch fields.
Returns `none` when the input starts with a dot not followed by digits
(the whole version is then invalid); skips (yielding 0) when the input
does not start with a dot. -/
def parseDotNat (s : GoStr) : Option (Nat × GoStr) :=
  match s with
  | '.' :: t =>
      match takeDigits t with
      | ([], _) => none
      | (ds, r) => some (digitsToNat ds, r)
  | _ => some (0, s)

/-- Model of the library's `NewVersion`: an optional leading `v`, a
numeric major with optional `.minor` and `.patch` (missing parts default
to 0), an optional `-prerelease` and an optional `+metadata`, anchored at
both ends, with the prerelease leading-zero validation. -/
def semverNewVersion (input : GoStr) : Option SemVersion :=
  let s := match input with
    | 'v' :: t => t
    | _ => input
  match takeDigits s with
  | ([], _) => none
  | (majorDs, r1) =>
    match parseDotNat r1 with
    | none => none
    | some (minor, r2) =>
      match parseDotNat r2 with
      | none => none
      | some (patch, r3) =>
        let preAndRest : Option (GoStr × GoStr) :=
          match r3 with
          | '-' :: t =>
              let pre := t.takeWhile (fun c => c ≠ '+')
              if segmentsOK pre && preNoLeadingZeros pre then
                some (pre, t.dropWhile (fun c => c ≠ '+'))
              else none
          | _ => some ([], r3)
        match preAndRest with
        | none => none
        | some (pre, r4) =>
          match r4 with
          | [] => some ⟨digitsToNat majorDs, minor, patch, pre, []⟩
          | '+' :: meta =>
              if segmentsOK meta then
                some ⟨digitsToNat majorDs, minor, patch, pre, meta⟩
              else none
          | _ => none

/-- Three-way comparison of naturals as an integer sign. -/
def cmpNat (a b : Nat) : Int :=
  if a < b then -1 else if a = b then 0 else 1

/-- Model of Go `strconv.ParseUint` (base 10) on a candidate prerelease
segment: one or more digits, no sign (the library compares prerelease
segments with `ParseUint`, so a segment like `-1` is treated as a
string, as its comment notes); 64-bit overflow is ignored. -/
def goParseUint (s : GoStr) : Option Nat :=
  if !s.isEmpty && s.all isAsciiDigit then some (digitsToNat s) else none

/-- Byte-wise lexicographic strict order on Go strings (Go `<` on
strings). -/
def goStrLess : GoStr → GoStr → Bool
  | [], [] => false
  | [], _ :: _ => true
  | _ :: _, [] => false
  | a :: as, b :: bs => if a < b then true else if b < a then false else goStrLess as bs

/-- The library's `comparePrePart`: unsigned-numeric segments compare as
numbers, numbers sort below non-numeric segments, non-numeric segments
(including sign-led ones like `-1`) compare as strings, and an absent
(empty) segment sorts below a present one. -/
def comparePrePart (s o : GoStr) : Int :=
  if s = o then 0
  else if s = [] then (if o ≠ [] then -1 else 1)
  else if o = [] then 1
  else
    match goParseUint o, goParseUint s with
    | some oi, some si => if si > oi then 1 else -1
    | some _, none => 1
    | none, some _ => -1
    | none, none => if goStrLess o s then 1 else -1

/-- First non-zero entry of a list of comparison results. -/
def firstNonzero : List Int → Int
  | [] => 0
  | d :: ds => if d ≠ 0 then d else firstNonzero ds

/-- The library's `comparePrerelease`: compare dot-separated segments
pairwise, padding the shorter side with empty segments. -/
def comparePrerelease (a b : GoStr) : Int :=
  let sa := goSplit ['.'] a
  let sb := goSplit ['.'] b
  let l := max sa.length sb.length
  let pa := sa ++ List.replicate (l - sa.length) []
  let pb := sb ++ List.replicate (l - sb.length) []
  firstNonzero (List.zipWith comparePrePart pa pb)

/-- The library's `Version.Compare`: numeric core first, then a version
without prerelease is greater than one with, then prerelease precedence.
Build metadata is ignored. -/
def semverCompare (a b : SemVersion) : Int :=
  if a.major ≠ b.major then cmpNat a.major b.major
  else if a.minor ≠ b.minor then cmpNat a.minor b.minor
  else if a.patch ≠ b.patch then cmpNat a.patch b.patch
  else if a.pre.isEmpty && b.pre.isEmpty then 0
  else if a.pre.isEmpty then 1
  else if b.pre.isEmpty then -1
  else comparePrerelease a.pre b.pre

/-- The library's `Version.Equal`. -/
def semverEqual (a b : SemVersion) : Bool := semverCompare a b = 0

/-- Comparison operators of the constraint language. -/
inductive ConstraintOp where
  | eq | neq | gt | lt | gte | lte | tilde | caret
deriving DecidableEq

/-- One comparator of a constraint: an operator applied to a version. -/
structure ConstraintAtom where
  op : ConstraintOp
  con : SemVersion
deriving DecidableEq

/-- A parsed constraint: a disjunction (the `||` groups) of
conjunctions of comparators. -/
abbrev SemConstraints := List (List ConstraintAtom)

/-- The library's per-comparator check.  All comparators share the
prerelease guard: a version carrying a prerelease only matches a
comparator whose version also carries one.  `~` requires the same
major.minor and no downgrade, except that a `~` on a 0.0.0 core is the
library's special case accepting every remaining version (it is treated
as at least 0.0.0); `^` requires no downgrade within the same major
(resp. minor for 0.y.z, patch for 0.0.z). -/
def checkConstraintAtom (v : SemVersion) (c : ConstraintAtom) : Bool :=
  if !v.pre.isEmpty && c.con.pre.isEmpty then false
  else
    match c.op with
    | .eq => semverEqual v c.con
    | .neq => !semverEqual v c.con
    | .gt => semverCompare v c.con > 0
    | .gte => semverCompare v c.con ≥ 0
    | .lt => semverCompare v c.con < 0
    | .lte => semverCompare v c.con ≤ 0
    | .tilde =>
        !(semverCompare v c.con < 0) &&
        (if c.con.major == 0 && c.con.minor == 0 && c.con.patch == 0 then true
         else v.major == c.con.major && v.minor == c.con.minor)
    | .caret =>
        !(semverCompare v c.con < 0) &&
        (if c.con.major > 0 then v.major == c.con.major
         else if v.major > 0 then false
         else if c.con.minor > 0 then v.minor == c.con.minor
         else v.minor == c.con.minor && v.patch == c.con.patch)

/-- The library's `Constraints.Check`: some `||` group has all of its
comparators satisfied. -/
def checkConstraints (cs : SemConstraints) (v : SemVersion) : Bool :=
  cs.any (fun g => g.all (checkConstraintAtom v))

/-- White space as matched by the backslash-s class of Go's regexp
package (space, tab, newline, carriage return, form feed — vertical tab
is not included), used by the constraint grammar. -/
def isRegexpSpace (c : Char) : Bool :=
  c = ' ' || c = '\t' || c = '\n' || c = '\r' || c = '\x0c'

/-- Characters a comparator's version text may contain. -/
def isVersionChar (c : Char) : Bool :=
  isPreChar c || c = '.' || c = '+' || c = '*'

/-- Reads an optional comparison operator from the front of a token
(two-character operators first); no operator means equality. -/
def parseConstraintOp (s : GoStr) : ConstraintOp × GoStr :=
  match s with
  | '>' :: '=' :: t => (.gte, t)
  | '=' :: '>' :: t => (.gte, t)
  | '<' :: '=' :: t => (.lte, t)
  | '=' :: '<' :: t => (.lte, t)
  | '!' :: '=' :: t => (.neq, t)
  | '~' :: '>' :: t => (.tilde, t)
  | '>' :: t => (.gt, t)
  | '<' :: t => (.lt, t)
  | '=' :: t => (.eq, t)
  | '~' :: t => (.tilde, t)
  | '^' :: t => (.caret, t)
  | t => (.eq, t)

/-- Requires an explicit `major.minor.patch` core (after an optional
`v`), i.e. rejects the partial and wildcard constraint versions that the
library would treat as "dirty". -/
def hasFullCore (s : GoStr) : Bool :=
  let s1 := match s with
    | 'v' :: t => t
    | _ => s
  match takeDigits s1 with
  | ([], _) => false
  | (_, r1) =>
    match r1 with
    | '.' :: t1 =>
      (match takeDigits t1 with
       | ([], _) => false
       | (_, r2) =>
         match r2 with
         | '.' :: t2 => !(t2.takeWhile isAsciiDigit).isEmpty
         | _ => false)
    | _ => false

/-- Parses one comparator of a constraint: an optional operator,
optional white space, and a version text that must carry an explicit
`major.minor.patch` core and parse as a version.  Returns the comparator
and the unconsumed remainder (which starts at the first
non-version character). -/
def parseOneConstraint (s : GoStr) : Option (ConstraintAtom × GoStr) :=
  let (op, s2) := parseConstraintOp s
  let s3 := s2.dropWhile isRegexpSpace
  let vtext := s3.takeWhile isVersionChar
  let rest := s3.dropWhile isVersionChar
  if vtext.isEmpty then none
  else if !hasFullCore vtext then none
  else
    match semverNewVersion vtext with
    | none => none
    | some con => some (⟨op, con⟩, rest)

/-- Parses the comparators following the first one.  The library's
anchored valid-constraint shape requires each further comparator to be
preceded either by at least one white-space character or by a comma with
optional surrounding white space; trailing white space is allowed, and a
trailing, doubled or leading comma is rejected.  Fuel-bounded for
structural recursion; every iteration consumes at least one character,
so `length + 1` fuel suffices. -/
def parseMoreConstraints : Nat → GoStr → Option (List ConstraintAtom)
  | 0, _ => none
  | fuel + 1, s =>
    let ws := s.takeWhile isRegexpSpace
    let s1 := s.dropWhile isRegexpSpace
    match s1 with
    | [] => some []
    | ',' :: t =>
        match parseOneConstraint (t.dropWhile isRegexpSpace) with
        | none => none
        | some (atom, rest) =>
            (parseMoreConstraints fuel rest).map (fun atoms => atom :: atoms)
    | _ =>
        if ws.isEmpty then none
        else
          match parseOneConstraint s1 with
          | none => none
          | some (atom, rest) =>
              (parseMoreConstraints fuel rest).map (fun atoms => atom :: atoms)

/-- Parses one `||` group: optional leading white space, a mandatory
first comparator, then separated further comparators.  A group that is
empty or starts with a comma is malformed. -/
def parseConstraintGroup (g : GoStr) : Option (List ConstraintAtom) :=
  match parseOneConstraint (g.dropWhile isRegexpSpace) with
  | none => none
  | some (atom, rest) =>
      (parseMoreConstraints (rest.length + 1) rest).map (fun atoms => atom :: atoms)

/-- Model of the library's `NewConstraint`: split on `||` and parse
every group, failing when any group is malformed. -/
def semverNewConstraint (s : GoStr) : Option SemConstraints :=
  (goSplit (str "||") s).mapM parseConstraintGroup

/-!
The version matcher (github.go:406-518).
-/

/-- The constraint-operator prefixes recognised by
`cleanVersionString` and `isConstraintNotVersion` (github.go:490, 503),
in source order. -/
def constraintPrefixes : List GoStr :=
  [str "^", str "~", str ">=", str "<=", str ">", str "<", str "="]

/-- Model of `isConstraintNotVersion` (github.go:500-518): the string is
treated as a range constraint when it starts with an operator prefix or
contains a space or a comma. -/
def isConstraintNotVersion (version : GoStr) : Bool :=
  let v := goTrimSpace version
  constraintPrefixes.any (fun p => p.isPrefixOf v) ||
    goContains v (str " ") || goContains v (str ",")

/-- The prefix-stripping loop of `cleanVersionString` (github.go:490-495):
remove at most one operator prefix (the first one that matches, trying
them in source order) and trim the remainder. -/
def stripLeadingOperator : List GoStr → GoStr → GoStr
  | [], v => v
  | p :: ps, v =>
      if p.isPrefixOf v then goTrimSpace (v.drop p.length) else stripLeadingOperator ps v

/-- Model of `cleanVersionString` (github.go:487-497). -/
def cleanVersionString (version : GoStr) : GoStr :=
  stripLeadingOperator constraintPrefixes (goTrimSpace version)

/-- The core `major.minor.patch` of a version rendered back to a string,
modelling the `fmt.Sprintf` at github.go:453. -/
def formatCoreVersion (v : SemVersion) : GoStr :=
  Nat.toDigits 10 v.major ++ '.' :: Nat.toDigits 10 v.minor ++ '.' :: Nat.toDigits 10 v.patch

/-- The prerelease rule of `isVersionVulnerable` (github.go:450-457 and
470-476): an installed prerelease whose re-parsed core equals an exact,
prerelease-free vulnerable version is vulnerable. -/
def prereleaseCoreMatches (installedVer vulnVer : SemVersion) : Bool :=
  !installedVer.pre.isEmpty && vulnVer.pre.isEmpty &&
    (match semverNewVersion (formatCoreVersion installedVer) with
     | some coreInstalled => semverEqual coreInstalled vulnVer
     | none => false)

/-- The exact-version part of `isVersionVulnerable` (github.go:433-480),
reached when the installed string is not handled by the constraint
branch: parse the cleaned installed string as a version (falling back to
the raw string) and match each vulnerable entry, as a constraint first
and otherwise as an exact version with the prerelease rule. -/
def isVersionVulnerableExact (installedVersion : GoStr) (vulnerableVersions : List GoStr) : Bool :=
  match semverNewVersion (cleanVersionString installedVersion) with
  | some installedVer =>
      vulnerableVersions.any (fun vulnVersion =>
        match semverNewConstraint vulnVersion with
        | some constraint => checkConstraints constraint installedVer
        | none =>
          match semverNewVersion vulnVersion with
          | some vulnVer =>
              semverEqual installedVer vulnVer ||
                prereleaseCoreMatches installedVer vulnVer
          | none => false)
  | none =>
      match semverNewVersion installedVersion with
      | some directVer =>
          vulnerableVersions.any (fun vulnVersion =>
            match semverNewVersion vulnVersion with
            | some vulnVer =>
                semverEqual directVer vulnVer ||
                  prereleaseCoreMatches directVer vulnVer
            | none => false)
      | none => false

/-- Model of `isVersionVulnerable` (github.go:408-483).  Exact string
equality is checked first; a constraint-shaped installed string that
parses as a constraint is checked against the vulnerable versions that
parse as exact versions (with no further fallback); otherwise the
exact-version logic runs. -/
def isVersionVulnerable (installedVersion : GoStr) (vulnerableVersions : List GoStr) : Bool :=
  if vulnerableVersions.any (fun vulnVersion => installedVersion = vulnVersion) then true
  else if isConstraintNotVersion installedVersion then
    match semverNewConstraint installedVersion with
    | some installedConstraint =>
        vulnerableVersions.any (fun vulnVersion =>
          match semverNewVersion vulnVersion with
          | some vulnVer => checkConstraints installedConstraint vulnVer
          | none => false)
    | none => isVersionVulnerableExact installedVersion vulnerableVersions
  else isVersionVulnerableExact installedVersion vulnerableVersions

/-!
Vulnerability index and scanners.

Go maps are modelled as association lists: the list order is the
(unspecified, run-dependent) iteration order of the map, and a map value
is well-formed when its keys are pairwise distinct.  The scanners below
take the already-parsed file content (plus the base filename) instead of
a path; reading and parsing failures are handled at the `ScanAction`
level, where each file slot carries the outcome of its scanner.
-/

/-- Modelled from the spec: the `VulnerableEntry` record
(`{ name, versions }`).  The Go struct `VulnerablePackage` is declared
next to the static vulnerable-package table, which is not among the
scanned sources; the scanning code in `github.go` reads only these two
fields. -/
structure VulnerablePackage where
  Name : GoStr
  Versions : List GoStr
deriving DecidableEq

/-- The zero value of the Go struct, returned on a failed lookup. -/
def emptyVulnerablePackage : VulnerablePackage := ⟨[], []⟩

/-- The `VulnerablePackageMap` Go map (github.go:220), as an association
list. -/
abbrev VulnerablePackageMap := List (GoStr × VulnerablePackage)

/-- Go map insertion: overwrites any existing binding of the key. -/
def mapInsert (m : VulnerablePackageMap) (k : GoStr) (v : VulnerablePackage) :
    VulnerablePackageMap :=
  (k, v) :: m.filter (fun kv => !(kv.1 == k))

/-- Go map lookup. -/
def mapFind (m : VulnerablePackageMap) (k : GoStr) : Option VulnerablePackage :=
  (m.find? (fun kv => kv.1 == k)).map (fun kv => kv.2)

/-- Model of `buildVulnerablePackageMap` (github.go:223-229). -/
def buildVulnerablePackageMap (vulnerablePackages : List VulnerablePackage) :
    VulnerablePackageMap :=
  vulnerablePackages.foldl (fun m pkg => mapInsert m pkg.Name pkg) []

/-- Model of the method `VulnerablePackageMap.isVulnerable`
(github.go:232-239). -/
def VulnerablePackageMap.isVulnerable (vpm : VulnerablePackageMap)
    (packageName version : GoStr) : Bool × VulnerablePackage :=
  match mapFind vpm packageName with
  | some vulnerablePackage =>
      if isVersionVulnerable version vulnerablePackage.Versions then
        (true, vulnerablePackage)
      else (false, emptyVulnerablePackage)
  | none => (false, emptyVulnerablePackage)

/-- Model of `formatVulnerabilityMessage` (github.go:242-244); the
vulnerable-package argument is accepted but unused, as in the source. -/
def formatVulnerabilityMessage (pkgName version filename : GoStr)
    (_vulnerablePackage : VulnerablePackage) : GoStr :=
  str "Found vulnerable package " ++ pkgName ++ str " with version " ++ version ++
    str " in " ++ filename

/-- Parsed `package.json` content (the five dependency buckets read by
the scanner); the four maps carry their iteration order. -/
structure PackageJSONModel where
  dependencies : List (GoStr × GoStr)
  devDependencies : List (GoStr × GoStr)
  peerDependencies : List (GoStr × GoStr)
  optionalDependencies : List (GoStr × GoStr)
  bundledDependencies : List GoStr
deriving DecidableEq

/-- One iteration of the dependency-type loop of
`scanPackageJSONOptimized` (github.go:334-345): scan one name-to-version
bucket, tagging each finding with the bucket name. -/
def scanDepBucket (vpm : VulnerablePackageMap) (filename typeName : GoStr)
    (deps : List (GoStr × GoStr)) : List GoStr :=
  deps.flatMap (fun kv =>
    match vpm.isVulnerable kv.1 kv.2 with
    | (true, vulnerablePackage) =>
        [formatVulnerabilityMessage kv.1 kv.2 filename vulnerablePackage ++
          str " (" ++ typeName ++ str ")"]
    | _ => [])

/-- Model of `scanPackageJSONOptimized` (github.go:311-355), applied to
the parsed content. -/
def scanPackageJSONOptimized (packageJSON : PackageJSONModel)
    (vpm : VulnerablePackageMap) (filename : GoStr) : List GoStr :=
  scanDepBucket vpm filename (str "dependencies") packageJSON.dependencies ++
  scanDepBucket vpm filename (str "devDependencies") packageJSON.devDependencies ++
  scanDepBucket vpm filename (str "peerDependencies") packageJSON.peerDependencies ++
  scanDepBucket vpm filename (str "optionalDependencies") packageJSON.optionalDependencies ++
  packageJSON.bundledDependencies.flatMap (fun bundledPkg =>
    if (mapFind vpm bundledPkg).isSome then
      [str "Found vulnerable package " ++ bundledPkg ++ str " in " ++ filename ++
        str " (bundledDependencies) - version unknown, check manually"]
    else [])

/-- Model of Go `strings.SplitN` with count 2: split at the first
occurrence of the (non-empty) separator only. -/
def goSplitN2 (sep s : GoStr) : List GoStr :=
  match indexOfSub sep s with
  | none => [s]
  | some i => [s.take i, s.drop (i + sep.length)]

/-- The cutset of the yarn scanner's quote-trimming (double and single
quotes). -/
def isYarnQuote (c : Char) : Bool := c = '"' || c = '\''

/-- Model of Go `strings.Trim` with the quote cutset: strip quotes from
both ends. -/
def goTrimQuotes (s : GoStr) : GoStr :=
  ((s.dropWhile isYarnQuote).reverse.dropWhile isYarnQuote).reverse

/-- Model of `extractPackageNameFromYarnSpec` (github.go:638-665): for a
scoped specifier the name runs to the first `@` after the first slash;
for an unscoped one, to the first `@`. -/
def extractPackageNameFromYarnSpec (spec0 : GoStr) : GoStr :=
  let spec := goTrimSpace spec0
  if (str "@").isPrefixOf spec then
    match indexOfSub (str "/") spec with
    | none => []
    | some firstSlash =>
      match indexOfSub (str "@") (spec.drop firstSlash) with
      | none => spec
      | some secondAt => spec.take (firstSlash + secondAt)
  else
    match indexOfSub (str "@") spec with
    | none => spec
    | some atIndex => spec.take atIndex

/-- The header-line loop of the yarn scanner (github.go:545-555): trim
and unquote each comma-separated specifier; the first one yielding a
non-empty package name wins. -/
def firstYarnPackageName : List GoStr → Option GoStr
  | [] => none
  | spec :: rest =>
      let packageName :=
        extractPackageNameFromYarnSpec (goTrimQuotes (goTrimSpace spec))
      if packageName ≠ [] then some packageName else firstYarnPackageName rest

/-- One iteration of the line loop of `scanYarnLockOptimized`
(github.go:530-568), acting on the state (current package name, findings
so far).  Blank and `#` lines are skipped; a header line is detected on
the raw line (no leading space) and the trimmed line (trailing colon); a
version line is indented by two spaces, contains the token `version`,
and is split at its first occurrence. -/
def processYarnLine (vpm : VulnerablePackageMap) (filename : GoStr)
    (acc : GoStr × List GoStr) (rawLine : GoStr) : GoStr × List GoStr :=
  let line := goTrimSpace rawLine
  if line = [] || (str "#").isPrefixOf line then acc
  else if !(str " ").isPrefixOf rawLine && (str ":").isSuffixOf line then
    match firstYarnPackageName (goSplit [','] (goTrimSuffixOf line (str ":"))) with
    | some packageName => (packageName, acc.2)
    | none => acc
  else if (str "  ").isPrefixOf rawLine && goContains line (str "version") then
    match goSplitN2 (str "version") line with
    | [_, after] =>
        let version := goTrimQuotes (goTrimSpace after)
        (match vpm.isVulnerable acc.1 version with
         | (true, vulnerablePackage) =>
             (acc.1,
              acc.2 ++ [formatVulnerabilityMessage acc.1 version filename vulnerablePackage])
         | _ => acc)
    | _ => acc
  else acc

/-- Model of `scanYarnLockOptimized` (github.go:520-572), applied to the
raw file content: split into lines and run the stateful line loop with
an empty initial package name.  The scanner reads no Go map, so its
output is a function of the content alone. -/
def scanYarnLockOptimized (data : GoStr) (vpm : VulnerablePackageMap)
    (filename : GoStr) : List GoStr :=
  ((goSplit ['\n'] data).foldl (processYarnLine vpm filename) ([], [])).2

/-- Parsed `pnpm-lock.yaml` content.  The scanner iterates only over the
keys of the `packages` map (the values are never read), so the model
keeps the key list; the two dependency maps carry their iteration
order. -/
structure PnpmLockModel where
  lockfileVersion : Int
  dependencies : List (GoStr × GoStr)
  devDependencies : List (GoStr × GoStr)
  packages : List GoStr
deriving DecidableEq

/-- Model of `extractPackageNameAndVersionFromPnpmPath`
(github.go:792-817). -/
def extractPackageNameAndVersionFromPnpmPath (pkgPath : GoStr) : GoStr × GoStr :=
  let p := goTrimPrefixOf pkgPath (str "/")
  let components := goSplit ['/'] p
  if components.length < 2 then ([], [])
  else if (str "@").isPrefixOf p then
    if components.length < 3 then ([], [])
    else (components.getD 0 [] ++ str "/" ++ components.getD 1 [], components.getD 2 [])
  else (components.getD 0 [], components.getD 1 [])

/-- One iteration of the dependency-type loop of `scanPnpmLockOptimized`
(github.go:709-718): these findings carry no bucket tag. -/
def scanPnpmDepBucket (vpm : VulnerablePackageMap) (filename : GoStr)
    (deps : List (GoStr × GoStr)) : List GoStr :=
  deps.flatMap (fun kv =>
    match vpm.isVulnerable kv.1 kv.2 with
    | (true, vulnerablePackage) =>
        [formatVulnerabilityMessage kv.1 kv.2 filename vulnerablePackage]
    | _ => [])

/-- Model of `scanPnpmLockOptimized` (github.go:667-721), applied to the
parsed content. -/
def scanPnpmLockOptimized (pnpmLock : PnpmLockModel)
    (vpm : VulnerablePackageMap) (filename : GoStr) : List GoStr :=
  (if pnpmLock.packages.length > 0 then
    pnpmLock.packages.flatMap (fun pkgPath =>
      if pkgPath = [] || pkgPath = str "/" then []
      else
        let nv := extractPackageNameAndVersionFromPnpmPath pkgPath
        if nv.1 = [] || nv.2 = [] then []
        else
          match vpm.isVulnerable nv.1 nv.2 with
          | (true, vulnerablePackage) =>
              [formatVulnerabilityMessage nv.1 nv.2 filename vulnerablePackage]
          | _ => [])
  else []) ++
  scanPnpmDepBucket vpm filename pnpmLock.dependencies ++
  scanPnpmDepBucket vpm filename pnpmLock.devDependencies

/-- `package-lock.json` generation 2/3 package entry (the fields read by
the scanner; the `dependencies` field of an entry is never read). -/
structure PackageLockPackageInfo where
  version : GoStr
  resolved : GoStr
deriving DecidableEq

/-- `package-lock.json` generation 1 entry: a version plus nested
dependency entries. -/
inductive PackageLockInfo where
  | mk (version : GoStr) (dependencies : List (GoStr × PackageLockInfo))

/-- Parsed `package-lock.json` content; both maps carry their iteration
order. -/
structure PackageLockJSONModel where
  lockfileVersion : Int
  packages : List (GoStr × PackageLockPackageInfo)
  dependencies : List (GoStr × PackageLockInfo)

/-- Model of `scanPackageLockPackagesOptimized` (github.go:868-885):
strip the `node_modules/` key prefix, skip the root entry and nested
installs, prefer the resolved version, and look the pair up. -/
def scanPackageLockPackagesOptimized (packages : List (GoStr × PackageLockPackageInfo))
    (vpm : VulnerablePackageMap) (filename : GoStr) : List GoStr :=
  packages.flatMap (fun kv =>
    let pkgName := goTrimPrefixOf kv.1 (str "node_modules/")
    if pkgName = [] || goContains pkgName (str "/node_modules/") then []
    else
      let actualVersion := getActualVersion kv.2.version kv.2.resolved
      match vpm.isVulnerable pkgName actualVersion with
      | (true, vulnerablePackage) =>
          [formatVulnerabilityMessage pkgName actualVersion filename vulnerablePackage]
      | _ => [])

/-- Model of `scanPackageLockDependenciesOptimized` (github.go:912-924):
the recursive generation-1 walk (own finding, then nested entries, then
the rest of the map). -/
def scanPackageLockDependenciesOptimized (vpm : VulnerablePackageMap) (filename : GoStr) :
    List (GoStr × PackageLockInfo) → List GoStr
  | [] => []
  | (pkgName, .mk version deps) :: rest =>
      (match vpm.isVulnerable pkgName version with
       | (true, vulnerablePackage) =>
           [formatVulnerabilityMessage pkgName version filename vulnerablePackage]
       | _ => []) ++
      (if deps.length > 0 then scanPackageLockDependenciesOptimized vpm filename deps
       else []) ++
      scanPackageLockDependenciesOptimized vpm filename rest

/-- Model of `scanPackageLockJSONOptimized` (github.go:819-841): the
flat `packages` map for generation at least 2, otherwise the nested
`dependencies` tree. -/
def scanPackageLockJSONOptimized (packageLockJSON : PackageLockJSONModel)
    (vpm : VulnerablePackageMap) (filename : GoStr) : List GoStr :=
  if packageLockJSON.lockfileVersion ≥ 2 ∧ packageLockJSON.packages.length > 0 then
    scanPackageLockPackagesOptimized packageLockJSON.packages vpm filename
  else if packageLockJSON.dependencies.length > 0 then
    scanPackageLockDependenciesOptimized vpm filename packageLockJSON.dependencies
  else []

/-- Two parsed generation-1 dependency trees represent the same
lockfile content up to Go map iteration order: entry lists may be
reordered at every nesting level, while each entry keeps its key and
version.  The constructors mirror those of `List.Perm`, with the `cons`
case additionally allowing the nested map of the head entry to be
reordered. -/
inductive LockDepsPerm :
    List (GoStr × PackageLockInfo) → List (GoStr × PackageLockInfo) → Prop where
  | nil : LockDepsPerm [] []
  | cons (k version : GoStr) (d1 d2 : List (GoStr × PackageLockInfo))
      (t1 t2 : List (GoStr × PackageLockInfo)) :
      LockDepsPerm d1 d2 → LockDepsPerm t1 t2 →
      LockDepsPerm ((k, .mk version d1) :: t1) ((k, .mk version d2) :: t2)
  | swap (x y : GoStr × PackageLockInfo) (l : List (GoStr × PackageLockInfo)) :
      LockDepsPerm (y :: x :: l) (x :: y :: l)
  | trans (l1 l2 l3 : List (GoStr × PackageLockInfo)) :
      LockDepsPerm l1 l2 → LockDepsPerm l2 l3 → LockDepsPerm l1 l3

/-!
ScanAction (github.go:247-307).

`ScanAction` orchestrates the four scanners over one action directory.
Its file-system interaction is modelled by an environment: each of the
four file slots is `none` when the file is absent (the scanner is
skipped) and otherwise carries the outcome its scanner produces on that
file, an error (read or parse failure) or a finding list.
-/

/-- The four file slots of an action directory, in the order `ScanAction`
visits them. -/
structure ActionDirModel where
  packageJSON : Option (Except GoStr (List GoStr))
  packageLockJSON : Option (Except GoStr (List GoStr))
  yarnLock : Option (Except GoStr (List GoStr))
  pnpmLock : Option (Except GoStr (List GoStr))

/-- One file block of `ScanAction`: skip an absent file, propagate a
scanner error, otherwise append the findings. -/
def scanStep (found : List GoStr) (slot : Option (Except GoStr (List GoStr))) :
    Except GoStr (List GoStr) :=
  match slot with
  | none => .ok found
  | some (.error e) => .error e
  | some (.ok vulnerabilities) => .ok (found ++ vulnerabilities)

/-- Model of `ScanAction` (github.go:247-307): the four file blocks in
source order; any scanner error is returned immediately (`return nil,
err`). -/
def ScanAction (dir : ActionDirModel) : Except GoStr (List GoStr) :=
  match scanStep [] dir.packageJSON with
  | .error e => .error e
  | .ok f1 =>
    match scanStep f1 dir.packageLockJSON with
    | .error e => .error e
    | .ok f2 =>
      match scanStep f2 dir.yarnLock with
      | .error e => .error e
      | .ok f3 => scanStep f3 dir.pnpmLock

/-- The outcomes of the scanners of the present files, in visiting
order. -/
def presentOutcomes (dir : ActionDirModel) : List (Except GoStr (List GoStr)) :=
  [dir.packageJSON, dir.packageLockJSON, dir.yarnLock, dir.pnpmLock].filterMap id

/-- The error of the first failing present scanner, if any. -/
def firstScanError (dir : ActionDirModel) : Option GoStr :=
  (presentOutcomes dir).findSome? (fun r =>
    match r with
    | .error e => some e
    | .ok _ => none)

/-- All findings of the present scanners, concatenated in visiting
order. -/
def allScanFindings (dir : ActionDirModel) : List GoStr :=
  (presentOutcomes dir).flatMap (fun r =>
    match r with
    | .ok vs => vs
    | .error _ => [])

/-!
Model validation.

The following examples replay, inside the model, the unit tests the
repository itself ships for `isVersionVulnerable`, `cleanVersionString`,
`extractVersionFromResolved` and `getActualVersion` (semver_test.go),
plus edge cases of the modelled library (a leading comma is a malformed
constraint, a tilde on a 0.0.0 core accepts everything, sign-led
prerelease segments compare as strings, comma-separated comparators) and
an end-to-end run of the yarn scanner.  All of them evaluate by kernel
reduction.
-/

example :
    extractVersionFromResolved
      (str "https://registry.npmjs.org/@ctrl/tinycolor/-/tinycolor-4.1.1.tgz")
      = str "4.1.1" := by decide

example : extractVersionFromResolved (str "https://example.com/invalid") = [] := by decide

example :
    extractVersionFromResolved
      (str "https://registry.npmjs.org/react/-/react-18.0.0-beta.0.tgz")
      = str "18.0.0-beta.0" := by decide

example : cleanVersionString (str ">=4.1.0") = str "4.1.0" := by decide

example : cleanVersionString (str " ^4.1.0 ") = str "4.1.0" := by decide

example :
    getActualVersion (str "~4.1.0") (str "") = str "~4.1.0" := by decide

example : isVersionVulnerable (str "4.1.1") [str "4.1.1"] = true := by decide
example : isVersionVulnerable (str "^4.1.0") [str "4.1.1"] = true := by decide
example : isVersionVulnerable (str "^3.0.0") [str "4.1.1"] = false := by decide
example : isVersionVulnerable (str "~4.1.0") [str "4.1.1"] = true := by decide
example : isVersionVulnerable (str "~4.0.0") [str "4.1.1"] = false := by decide
example : isVersionVulnerable (str "4.1.2") [str "4.1.1", str "4.1.2", str "4.1.3"] = true := by
  decide
example : isVersionVulnerable (str "4.2.0") [str "4.1.1", str "4.1.2", str "4.1.3"] = false := by
  decide
example : isVersionVulnerable (str ">=4.1.0") [str "4.1.1"] = true := by decide
example : isVersionVulnerable (str "4.1.5") [str ">=4.1.1 <4.2.0"] = true := by decide
example : isVersionVulnerable (str "4.2.0") [str ">=4.1.1 <4.2.0"] = false := by decide
example : isVersionVulnerable (str "latest") [str "latest"] = true := by decide
example : isVersionVulnerable (str "4.1.2-alpha.1") [str "4.1.1"] = false := by decide
example : isVersionVulnerable (str "4.1.1") [str "4.1.1-beta.1"] = false := by decide

example : semverNewConstraint (str ",1.2.3") = none := by decide

example : semverNewConstraint (str "1.2.3 ,") = none := by decide

example : isVersionVulnerable (str ",1.2.3") [str "1.2.3"] = false := by decide

example : isVersionVulnerable (str "~0.0.0") [str "1.2.3"] = true := by decide

example : isVersionVulnerable (str "4.1.5") [str ">=4.1.1, <4.2.0"] = true := by decide

example : comparePrePart (str "-1") (str "2") = 1 := by decide

example : extractPackageNameFromYarnSpec (str "lodash@^4.17.21") = str "lodash" := by decide

example : extractPackageNameFromYarnSpec (str "@ctrl/tinycolor@^4.1.0")
    = str "@ctrl/tinycolor" := by decide

example :
    scanYarnLockOptimized
      (str "# comment\n@ctrl/tinycolor@^4.1.0:\n  version \"4.1.1\"\n")
      (buildVulnerablePackageMap [⟨str "@ctrl/tinycolor", [str "4.1.1"]⟩])
      (str "yarn.lock")
    = [str "Found vulnerable package @ctrl/tinycolor with version 4.1.1 in yarn.lock"] := by
  decide

/-!
Helper lemmas.
-/

theorem goSplit_of_not_contains {sep s : GoStr} (hsep : sep ≠ [])
    (h : goContains s sep = false) : goSplit sep s = [s] := by
  have hidx : indexOfSub sep s = none := by
    unfold goContains at h
    cases hi : indexOfSub sep s with
    | none => rfl
    | some i => rw [hi] at h; simp at h
  unfold goSplit
  rw [if_neg hsep]
  unfold goSplitAux
  rw [hidx]

theorem dropUntilDigitStart_some {l sf : List GoStr}
    (h : dropUntilDigitStart l = some sf) :
    ∃ p rest, sf = p :: rest ∧ p ≠ [] ∧ isAsciiDigit (p.headD ' ') = true := by
  induction l with
  | nil => simp [dropUntilDigitStart] at h
  | cons p rest ih =>
    unfold dropUntilDigitStart at h
    by_cases hc : (!p.isEmpty && isAsciiDigit (p.headD ' ')) = true
    · rw [if_pos hc] at h
      obtain ⟨h1, h2⟩ := Bool.and_eq_true_iff.mp hc
      refine ⟨p, rest, ?_, ?_, h2⟩
      · exact (Option.some_inj.mp h).symm
      · simpa using h1
    · rw [if_neg hc] at h
      exact ih h

theorem goJoin_headD (sep : GoStr) {p : GoStr} (q : List GoStr) (x : Char)
    (hp : p ≠ []) : (goJoin sep (p :: q)).headD x = p.headD x := by
  cases q with
  | nil => rfl
  | cons b t =>
    unfold goJoin
    cases p with
    | nil => exact absurd rfl hp
    | cons c cs => rfl

/-- Every result of the extractor is either empty or starts with an
ASCII digit (the digit-search loop guarantees the first joined part is
digit-leading). -/
theorem extract_nil_or_digit (s : GoStr) :
    extractVersionFromResolved s = [] ∨
      (extractVersionFromResolved s ≠ [] ∧
        isAsciiDigit ((extractVersionFromResolved s).headD ' ') = true) := by
  unfold extractVersionFromResolved
  by_cases h0 : s = []
  · left; rw [if_pos h0]
  · rw [if_neg h0]
    by_cases h1 : (goSplit (str "/-/") s).length < 2
    · left; rw [if_pos h1]
    · rw [if_neg h1]
      by_cases h2 :
          (goSplit ['-']
            (goTrimSuffixOf ((goSplit (str "/-/") s).getLastD []) (str ".tgz"))).length < 2
      · left; rw [if_pos h2]
      · rw [if_neg h2]
        cases hdu : dropUntilDigitStart
            (goSplit ['-']
              (goTrimSuffixOf ((goSplit (str "/-/") s).getLastD []) (str ".tgz"))).tail with
        | none => left; rfl
        | some sf =>
          obtain ⟨p, rest, rfl, hpne, hdig⟩ := dropUntilDigitStart_some hdu
          show goJoin ['-'] (p :: rest) = [] ∨
            (goJoin ['-'] (p :: rest) ≠ [] ∧
              isAsciiDigit ((goJoin ['-'] (p :: rest)).headD ' ') = true)
          have hh : (goJoin ['-'] (p :: rest)).headD ' ' = p.headD ' ' :=
            goJoin_headD ['-'] rest ' ' hpne
          right
          refine ⟨?_, by rw [hh]; exact hdig⟩
          intro hnil
          rw [hnil] at hh
          rw [← hh] at hdig
          exact absurd hdig (by decide)

theorem find_filter_ne (m : VulnerablePackageMap) (k n : GoStr) (h : n ≠ k) :
    (m.filter (fun kv => !(kv.1 == k))).find? (fun kv => kv.1 == n)
      = m.find? (fun kv => kv.1 == n) := by
  induction m with
  | nil => rfl
  | cons kv rest ih =>
    by_cases hk : kv.1 = k
    · have h1 : (kv.1 == k) = true := beq_iff_eq.mpr hk
      have h2 : (kv.1 == n) = false := by
        refine beq_eq_false_iff_ne.mpr ?_
        rw [hk]
        exact fun hc => h hc.symm
      simp [List.filter_cons, h1, List.find?_cons, h2, ih]
    · have h1 : (kv.1 == k) = false := beq_eq_false_iff_ne.mpr hk
      by_cases hn : kv.1 = n
      · have h2 : (kv.1 == n) = true := beq_iff_eq.mpr hn
        simp [List.filter_cons, h1, List.find?_cons, h2]
      · have h2 : (kv.1 == n) = false := beq_eq_false_iff_ne.mpr hn
        simp [List.filter_cons, h1, List.find?_cons, h2, ih]

/-- Go map semantics of `mapInsert`: the inserted binding wins. -/
theorem mapFind_insert (m : VulnerablePackageMap) (k : GoStr) (v : VulnerablePackage)
    (n : GoStr) :
    mapFind (mapInsert m k v) n = if n = k then some v else mapFind m n := by
  unfold mapFind mapInsert
  by_cases hk : n = k
  · have : (k == n) = true := beq_iff_eq.mpr hk.symm
    simp [List.find?_cons, this, hk]
  · have : (k == n) = false := beq_eq_false_iff_ne.mpr (fun hc => hk hc.symm)
    simp [List.find?_cons, this, hk, find_filter_ne m k n hk]

/-- Looking a name up in the built map finds the LAST entry of the input
list carrying that name (the Go loop overwrites earlier entries). -/
theorem mapFind_build (l : List VulnerablePackage) (n : GoStr) :
    mapFind (buildVulnerablePackageMap l) n
      = (l.reverse.find? (fun p => p.Name == n)).map id := by
  induction l using List.reverseRecOn with
  | nil => rfl
  | append_singleton l p ih =>
    have hb : buildVulnerablePackageMap (l ++ [p])
        = mapInsert (buildVulnerablePackageMap l) p.Name p := by
      unfold buildVulnerablePackageMap
      rw [List.foldl_append]
      rfl
    rw [hb, mapFind_insert, List.reverse_append]
    by_cases hn : n = p.Name
    · have : (p.Name == n) = true := beq_iff_eq.mpr hn.symm
      simp [List.find?_cons, this, hn]
    · have : (p.Name == n) = false := beq_eq_false_iff_ne.mpr (fun hc => hn hc.symm)
      simp [List.find?_cons, this, hn, ih]

/-- The lookup of the vulnerability index returns true exactly when the
name is bound and the bound entry's versions match. -/
theorem isVulnerable_fst_iff (vpm : VulnerablePackageMap) (name version : GoStr) :
    (vpm.isVulnerable name version).1 = true ↔
      ∃ e, mapFind vpm name = some e ∧ isVersionVulnerable version e.Versions = true := by
  unfold VulnerablePackageMap.isVulnerable
  cases hf : mapFind vpm name with
  | none => simp
  | some e =>
    by_cases hv : isVersionVulnerable version e.Versions = true
    · simp [hv]
    · simp [hv]

theorem perm_append_middle_swap {α : Type} (u v w : List α) :
    (u ++ (v ++ w)).Perm (v ++ (u ++ w)) := by
  rw [← List.append_assoc, ← List.append_assoc]
  exact List.Perm.append_right w List.perm_append_comm

/-- Reordering a dependency tree at every level keeps the number of
top-level entries. -/
theorem LockDepsPerm.length_eq {d1 d2 : List (GoStr × PackageLockInfo)}
    (h : LockDepsPerm d1 d2) : d1.length = d2.length := by
  induction h with
  | nil => rfl
  | cons k version da db ta tb hd ht ihd iht => simp [iht]
  | swap x y l => simp
  | trans l1 l2 l3 h1 h2 ih1 ih2 => exact ih1.trans ih2

/-- The generation-1 recursive walk produces the same findings up to
order when the parsed tree is reordered at any nesting levels. -/
theorem scanPackageLockDependenciesOptimized_perm (vpm : VulnerablePackageMap)
    (filename : GoStr) {d1 d2 : List (GoStr × PackageLockInfo)}
    (h : LockDepsPerm d1 d2) :
    (scanPackageLockDependenciesOptimized vpm filename d1).Perm
      (scanPackageLockDependenciesOptimized vpm filename d2) := by
  induction h with
  | nil => exact List.Perm.refl _
  | cons k version da db ta tb hd ht ihd iht =>
      simp only [scanPackageLockDependenciesOptimized]
      refine List.Perm.append (List.Perm.append (List.Perm.refl _) ?_) iht
      by_cases hl : da.length > 0
      · rw [if_pos hl, if_pos (hd.length_eq ▸ hl)]
        exact ihd
      · rw [if_neg hl, if_neg (fun hc => hl (hd.length_eq ▸ hc))]
  | swap x y l =>
      obtain ⟨kx, ix⟩ := x
      obtain ⟨ky, iy⟩ := y
      cases ix with
      | mk vx dx =>
        cases iy with
        | mk vy dy =>
          simp only [scanPackageLockDependenciesOptimized]
          exact perm_append_middle_swap _ _ _
  | trans l1 l2 l3 h1 h2 ih1 ih2 => exact ih1.trans ih2

/-!
Claim theorems.
-/

/-- Claim C1: for every list of vulnerable version strings and every
installed string that is string-equal to some entry of the list,
`isVersionVulnerable` returns true — regardless of whether the entry is
a semantic version, a range specifier, or an opaque string such as
"latest" — because the exact-string loop runs before any parsing. -/
theorem isVersionVulnerable_exact_match (installedVersion : GoStr)
    (vulnerableVersions : List GoStr) (h : installedVersion ∈ vulnerableVersions) :
    isVersionVulnerable installedVersion vulnerableVersions = true := by
  unfold isVersionVulnerable
  have hany : vulnerableVersions.any (fun v => installedVersion = v) = true := by
    simp only [List.any_eq_true, decide_eq_true_eq]
    exact ⟨installedVersion, h, rfl⟩
  simp [hany]

/-- Witness for claim C1 at the opaque entry "latest". -/
theorem isVersionVulnerable_exact_match_witness :
    isVersionVulnerable (str "latest") [str "latest"] = true :=
  isVersionVulnerable_exact_match (str "latest") [str "latest"] (by decide)

/-- Claim C2: when the installed string is a range specifier (operator
prefix, space, or comma), parses as the constraint `c`, and the single
vulnerable entry parses as the exact version `v`, the matcher returns
precisely "string-equal or `v` satisfies `c`" (satisfaction being the
modelled library's range check); so a satisfying `v` yields true, a
non-satisfying, non-string-equal `v` yields false, and no exact-version
fallback is attempted once the constraint parses. -/
theorem isVersionVulnerable_range_vs_exact (r e : GoStr) (c : SemConstraints) (v : SemVersion)
    (h1 : isConstraintNotVersion r = true)
    (h2 : semverNewConstraint r = some c)
    (h3 : semverNewVersion e = some v) :
    isVersionVulnerable r [e] = (decide (r = e) || checkConstraints c v) := by
  unfold isVersionVulnerable
  by_cases hre : r = e
  · simp [hre, h1, h2, h3]
  · simp [hre, h1, h2, h3]

/-- Witness for claim C2: a caret range hit and a caret range miss. -/
theorem isVersionVulnerable_range_vs_exact_witness :
    isVersionVulnerable (str "^4.1.0") [str "4.1.1"] = true ∧
    isVersionVulnerable (str "^3.0.0") [str "4.1.1"] = false := by
  constructor
  · rw [isVersionVulnerable_range_vs_exact (str "^4.1.0") (str "4.1.1")
      [[⟨ConstraintOp.caret, ⟨4, 1, 0, [], []⟩⟩]] ⟨4, 1, 1, [], []⟩
      (by decide) (by decide) (by decide)]
    decide
  · rw [isVersionVulnerable_range_vs_exact (str "^3.0.0") (str "4.1.1")
      [[⟨ConstraintOp.caret, ⟨3, 0, 0, [], []⟩⟩]] ⟨4, 1, 1, [], []⟩
      (by decide) (by decide) (by decide)]
    decide

/-- Claim C3 (code bug): the first two prerelease-policy cases hold as
claimed — a prerelease of a different core and a stable installed
version against a prerelease entry both yield false — but the third
contradicts the claim: `isVersionVulnerable "4.1.1-rc.0" ["4.1.1"]`
evaluates to false, not true.  The vulnerable entry "4.1.1" parses as a
constraint, the library's constraint check rejects prerelease versions,
and the `continue` in the loop then skips the prerelease-core rule of
github.go:450-457, leaving that rule unreachable for any vulnerable
entry that parses as a constraint (which every plain version does).  The
repository's own prerelease test is skipped as "problematic". -/
theorem isVersionVulnerable_prerelease_policy :
    isVersionVulnerable (str "4.1.2-alpha.1") [str "4.1.1"] = false ∧
    isVersionVulnerable (str "4.1.1") [str "4.1.1-beta.1"] = false ∧
    isVersionVulnerable (str "4.1.1-rc.0") [str "4.1.1"] = false :=
  ⟨by decide, by decide, by decide⟩

/-- Claim C4: the extractor returns "4.1.1" on the registry tarball URL,
the empty string on the empty input and on every input lacking the
slash-dash-slash separator, and `getActualVersion` returns the
extractor's result whenever that result is non-empty and the declared
version otherwise, so the declared "^4.1.0" is overridden by "4.1.1". -/
theorem extractVersion_getActualVersion_contract :
    extractVersionFromResolved
      (str "https://registry.example.org/@ctrl/tinycolor/-/tinycolor-4.1.1.tgz")
      = str "4.1.1" ∧
    extractVersionFromResolved (str "") = str "" ∧
    (∀ s : GoStr, goContains s (str "/-/") = false → extractVersionFromResolved s = str "") ∧
    (∀ declared resolved : GoStr,
      getActualVersion declared resolved =
        if extractVersionFromResolved resolved ≠ [] then extractVersionFromResolved resolved
        else declared) ∧
    getActualVersion (str "^4.1.0")
      (str "https://registry.example.org/@ctrl/tinycolor/-/tinycolor-4.1.1.tgz")
      = str "4.1.1" := by
  refine ⟨by decide, by decide, ?_, ?_, by decide⟩
  · intro s h
    unfold extractVersionFromResolved
    by_cases h0 : s = []
    · rw [if_pos h0]; rfl
    · rw [if_neg h0, goSplit_of_not_contains (by decide) h]
      rw [if_pos (by simp)]
      rfl
  · intro declared resolved
    rfl

/-- Witness for claim C4 on a URL without the separator. -/
theorem extractVersion_getActualVersion_contract_witness :
    extractVersionFromResolved (str "https://example.com/invalid") = str "" :=
  extractVersion_getActualVersion_contract.2.2.1 (str "https://example.com/invalid") (by decide)

/-- Counterexample to claim C5: with `package.json` present and
succeeding with a finding, `package-lock.json` present but failing, and
`yarn.lock` present and succeeding with a finding, `ScanAction` returns
only the error — the sibling scanners' findings are not returned to the
caller as the claim states. -/
theorem scanAction_abort_counterexample :
    ScanAction ⟨some (.ok [str "finding-a"]), some (.error (str "parse failure")),
        some (.ok [str "finding-b"]), none⟩
      = .error (str "parse failure") ∧
    ScanAction ⟨some (.ok [str "finding-a"]), some (.error (str "parse failure")),
        some (.ok [str "finding-b"]), none⟩
      ≠ .ok [str "finding-a", str "finding-b"] := by
  refine ⟨rfl, ?_⟩
  intro h
  exact Except.noConfusion h

/-- Claim C5 as amended: a scanner failure aborts the whole action scan.
`ScanAction` returns the error of the first failing present scanner (so
the failing file contributes zero findings and the error is reported),
and only when every present scanner succeeds does it return the
concatenation of all their findings; scanners after the first failure do
not contribute and findings collected before it are discarded. -/
theorem scanAction_first_error_characterization (dir : ActionDirModel) :
    ScanAction dir =
      match firstScanError dir with
      | some e => .error e
      | none => .ok (allScanFindings dir) := by
  obtain ⟨a, b, c, d⟩ := dir
  rcases a with _ | (_ | _) <;> rcases b with _ | (_ | _) <;>
    rcases c with _ | (_ | _) <;> rcases d with _ | (_ | _) <;>
    simp [ScanAction, scanStep, firstScanError, allScanFindings, presentOutcomes]

/-- Claim C6: a generation-3 lockfile whose flat package map binds
`node_modules/@ctrl/tinycolor` to version 4.1.1, scanned against the
matching vulnerable entry, yields exactly one finding; and an entry
whose key strips to the empty name (the root entry) or still contains a
nested `/node_modules/` marker yields no finding whatever the
vulnerable map contains. -/
theorem scanPackageLock_v3_direct_and_nested :
    (scanPackageLockJSONOptimized
        ⟨3, [(str "node_modules/@ctrl/tinycolor", ⟨str "4.1.1", str ""⟩)], []⟩
        (buildVulnerablePackageMap [⟨str "@ctrl/tinycolor", [str "4.1.1"]⟩])
        (str "package-lock.json")).length = 1 ∧
    (∀ (key : GoStr) (info : PackageLockPackageInfo) (vpm : VulnerablePackageMap)
        (filename : GoStr),
      goTrimPrefixOf key (str "node_modules/") = [] ∨
        goContains (goTrimPrefixOf key (str "node_modules/")) (str "/node_modules/") = true →
      scanPackageLockPackagesOptimized [(key, info)] vpm filename = []) := by
  refine ⟨by decide, ?_⟩
  intro key info vpm filename h
  unfold scanPackageLockPackagesOptimized
  rcases h with h | h
  · simp [h]
  · simp [h]

/-- Witness for claim C6: a nested-install key produces no finding even
though the vulnerable map names exactly its stripped key and version. -/
theorem scanPackageLock_v3_direct_and_nested_witness :
    scanPackageLockPackagesOptimized
      [(str "node_modules/@ctrl/tinycolor/node_modules/foo",
        (⟨str "4.1.1", str ""⟩ : PackageLockPackageInfo))]
      (buildVulnerablePackageMap [⟨str "@ctrl/tinycolor/node_modules/foo", [str "4.1.1"]⟩])
      (str "package-lock.json") = [] :=
  scanPackageLock_v3_direct_and_nested.2
    (str "node_modules/@ctrl/tinycolor/node_modules/foo") ⟨str "4.1.1", str ""⟩
    (buildVulnerablePackageMap [⟨str "@ctrl/tinycolor/node_modules/foo", [str "4.1.1"]⟩])
    (str "package-lock.json") (Or.inr (by decide))

/-- Claim C7: when the installed string is a range specifier that parses
as a constraint and the vulnerable entry does not parse as an exact
version (such as the literal "latest"), the matcher returns true exactly
when the two strings are equal: the constraint branch requires the entry
to parse as a version, and it ends the evaluation. -/
theorem isVersionVulnerable_range_vs_nonsemver (r e : GoStr) (c : SemConstraints)
    (h1 : isConstraintNotVersion r = true)
    (h2 : semverNewConstraint r = some c)
    (h3 : semverNewVersion e = none) :
    isVersionVulnerable r [e] = decide (r = e) := by
  unfold isVersionVulnerable
  by_cases hre : r = e
  · simp [hre, h1, h2, h3]
  · simp [hre, h1, h2, h3]

/-- Witness for claim C7: a range against "latest" is false; a range
against its own text is true by exact match. -/
theorem isVersionVulnerable_range_vs_nonsemver_witness :
    isVersionVulnerable (str "^4.1.0") [str "latest"] = false ∧
    isVersionVulnerable (str "^4.1.0") [str "^4.1.0"] = true := by
  constructor
  · rw [isVersionVulnerable_range_vs_nonsemver (str "^4.1.0") (str "latest")
      [[⟨ConstraintOp.caret, ⟨4, 1, 0, [], []⟩⟩]] (by decide) (by decide) (by decide)]
    decide
  · rw [isVersionVulnerable_range_vs_nonsemver (str "^4.1.0") (str "^4.1.0")
      [[⟨ConstraintOp.caret, ⟨4, 1, 0, [], []⟩⟩]] (by decide) (by decide) (by decide)]
    decide

/-- Counterexample to claim C8: the same `package.json` content (the
two-entry dependencies map, in two iteration orders that Go's
map-iteration randomization can both produce) yields finding lists that
are not equal — the findings come out in a different order. -/
theorem scanPackageJSONOptimized_order_counterexample :
    ([(str "a", str "1.0.0"), (str "b", str "2.0.0")] : List (GoStr × GoStr)).Perm
      [(str "b", str "2.0.0"), (str "a", str "1.0.0")] ∧
    scanPackageJSONOptimized
        ⟨[(str "a", str "1.0.0"), (str "b", str "2.0.0")], [], [], [], []⟩
        (buildVulnerablePackageMap
          [⟨str "a", [str "1.0.0"]⟩, ⟨str "b", [str "2.0.0"]⟩])
        (str "package.json")
      ≠ scanPackageJSONOptimized
        ⟨[(str "b", str "2.0.0"), (str "a", str "1.0.0")], [], [], [], []⟩
        (buildVulnerablePackageMap
          [⟨str "a", [str "1.0.0"]⟩, ⟨str "b", [str "2.0.0"]⟩])
        (str "package.json") := by
  constructor
  · decide
  · decide

/-- Claim C8 as amended, covering all four scanners: each scanner is a
pure function of the file content together with the iteration order of
its Go maps, so two runs with the same iteration order return identical
lists; across different iteration orders of the same maps (which Go's
randomization produces for the same unmodified file) the finding lists
agree as multisets — they are permutations of each other — but not
necessarily in the same order.  Specifically: the declaration-file
scanner under reordering of its four dependency buckets, the yarn
scanner (which reads no Go map, so its two-run determinism holds
outright, including finding order), the pnpm scanner under reordering of
its package-key and dependency maps, and the package-lock scanner under
reordering of its flat package map and of its generation-1 dependency
tree at every nesting level. -/
theorem scanners_findings_perm_of_map_perm :
    (∀ (p1 p2 : PackageJSONModel) (vpm : VulnerablePackageMap) (filename : GoStr),
      p1.dependencies.Perm p2.dependencies →
      p1.devDependencies.Perm p2.devDependencies →
      p1.peerDependencies.Perm p2.peerDependencies →
      p1.optionalDependencies.Perm p2.optionalDependencies →
      p1.bundledDependencies = p2.bundledDependencies →
      (scanPackageJSONOptimized p1 vpm filename).Perm
        (scanPackageJSONOptimized p2 vpm filename)) ∧
    (∀ (data : GoStr) (vpm : VulnerablePackageMap) (filename : GoStr),
      scanYarnLockOptimized data vpm filename = scanYarnLockOptimized data vpm filename) ∧
    (∀ (l1 l2 : PnpmLockModel) (vpm : VulnerablePackageMap) (filename : GoStr),
      l1.packages.Perm l2.packages →
      l1.dependencies.Perm l2.dependencies →
      l1.devDependencies.Perm l2.devDependencies →
      (scanPnpmLockOptimized l1 vpm filename).Perm
        (scanPnpmLockOptimized l2 vpm filename)) ∧
    (∀ (p1 p2 : PackageLockJSONModel) (vpm : VulnerablePackageMap) (filename : GoStr),
      p1.lockfileVersion = p2.lockfileVersion →
      p1.packages.Perm p2.packages →
      LockDepsPerm p1.dependencies p2.dependencies →
      (scanPackageLockJSONOptimized p1 vpm filename).Perm
        (scanPackageLockJSONOptimized p2 vpm filename)) := by
  refine ⟨?_, ?_, ?_, ?_⟩
  · intro p1 p2 vpm filename h1 h2 h3 h4 h5
    unfold scanPackageJSONOptimized scanDepBucket
    refine List.Perm.append (List.Perm.append (List.Perm.append (List.Perm.append
      (h1.flatMap_right _) (h2.flatMap_right _)) (h3.flatMap_right _))
      (h4.flatMap_right _)) ?_
    rw [h5]
  · intro data vpm filename
    rfl
  · intro l1 l2 vpm filename hp hd hdd
    unfold scanPnpmLockOptimized scanPnpmDepBucket
    refine List.Perm.append (List.Perm.append ?_ (hd.flatMap_right _))
      (hdd.flatMap_right _)
    by_cases h : l1.packages.length > 0
    · rw [if_pos h, if_pos (hp.length_eq ▸ h)]
      exact hp.flatMap_right _
    · rw [if_neg h, if_neg (fun hc => h (hp.length_eq ▸ hc))]
  · intro p1 p2 vpm filename hv hp hd
    unfold scanPackageLockJSONOptimized
    by_cases h1 : p1.lockfileVersion ≥ 2 ∧ p1.packages.length > 0
    · have h1b : p2.lockfileVersion ≥ 2 ∧ p2.packages.length > 0 := by
        rw [← hv, ← hp.length_eq]; exact h1
      rw [if_pos h1, if_pos h1b]
      unfold scanPackageLockPackagesOptimized
      exact hp.flatMap_right _
    · have h1b : ¬(p2.lockfileVersion ≥ 2 ∧ p2.packages.length > 0) := by
        rw [← hv, ← hp.length_eq]; exact h1
      rw [if_neg h1, if_neg h1b]
      by_cases h2 : p1.dependencies.length > 0
      · have h2b : p2.dependencies.length > 0 := hd.length_eq ▸ h2
        rw [if_pos h2, if_pos h2b]
        exact scanPackageLockDependenciesOptimized_perm vpm filename hd
      · have h2b : ¬p2.dependencies.length > 0 := fun hc => h2 (hd.length_eq ▸ hc)
        rw [if_neg h2, if_neg h2b]

/-- Witness for the amended claim C8 at the counterexample's input: the
two finding lists are permutations of each other. -/
theorem scanners_findings_perm_of_map_perm_witness :
    (scanPackageJSONOptimized
        ⟨[(str "a", str "1.0.0"), (str "b", str "2.0.0")], [], [], [], []⟩
        (buildVulnerablePackageMap
          [⟨str "a", [str "1.0.0"]⟩, ⟨str "b", [str "2.0.0"]⟩])
        (str "package.json")).Perm
      (scanPackageJSONOptimized
        ⟨[(str "b", str "2.0.0"), (str "a", str "1.0.0")], [], [], [], []⟩
        (buildVulnerablePackageMap
          [⟨str "a", [str "1.0.0"]⟩, ⟨str "b", [str "2.0.0"]⟩])
        (str "package.json")) :=
  scanners_findings_perm_of_map_perm.1
    ⟨[(str "a", str "1.0.0"), (str "b", str "2.0.0")], [], [], [], []⟩
    ⟨[(str "b", str "2.0.0"), (str "a", str "1.0.0")], [], [], [], []⟩
    (buildVulnerablePackageMap [⟨str "a", [str "1.0.0"]⟩, ⟨str "b", [str "2.0.0"]⟩])
    (str "package.json") (by decide) (by decide) (by decide) (by decide) rfl

/-- Claim C9: for an input list with two entries of the same name, the
built index binds that name to the later entry; the lookup on that name
equals the version match against the later entry's versions; and in
general the lookup reports vulnerable exactly when the name is a key of
the index and `isVersionVulnerable` holds for the bound entry. -/
theorem buildVulnerablePackageMap_last_wins_lookup
    (l1 l2 l3 : List VulnerablePackage) (e1 e2 : VulnerablePackage)
    (hname : e2.Name = e1.Name) (hl3 : ∀ e ∈ l3, e.Name ≠ e1.Name) (v : GoStr) :
    mapFind (buildVulnerablePackageMap (l1 ++ e1 :: l2 ++ e2 :: l3)) e1.Name = some e2 ∧
    ((buildVulnerablePackageMap (l1 ++ e1 :: l2 ++ e2 :: l3)).isVulnerable e1.Name v).1
      = isVersionVulnerable v e2.Versions ∧
    (∀ (vpm : VulnerablePackageMap) (name version : GoStr),
      (vpm.isVulnerable name version).1 = true ↔
        ∃ e, mapFind vpm name = some e ∧ isVersionVulnerable version e.Versions = true) := by
  have hfind : mapFind (buildVulnerablePackageMap (l1 ++ e1 :: l2 ++ e2 :: l3)) e1.Name
      = some e2 := by
    rw [mapFind_build, List.reverse_append, List.reverse_cons, List.reverse_append]
    have h3 : (l3.reverse.find? (fun p => p.Name == e1.Name)) = none := by
      rw [List.find?_eq_none]
      intro x hx
      simp only [beq_iff_eq]
      exact hl3 x (List.mem_reverse.mp hx)
    rw [List.append_assoc, List.find?_append, h3]
    have h2 : ((e2 :: (l2.reverse ++ e1 :: l1.reverse)).find?
        (fun p => p.Name == e1.Name)) = some e2 := by
      rw [List.find?_cons_of_pos]
      exact beq_iff_eq.mpr hname
    simp [h2]
  refine ⟨hfind, ?_, isVulnerable_fst_iff⟩
  by_cases hv : isVersionVulnerable v e2.Versions = true
  · rw [hv]
    exact (isVulnerable_fst_iff _ _ _).mpr ⟨e2, hfind, hv⟩
  · have hv2 : isVersionVulnerable v e2.Versions = false := Bool.eq_false_iff.mpr hv
    rw [hv2]
    cases hb : ((buildVulnerablePackageMap
        (l1 ++ e1 :: l2 ++ e2 :: l3)).isVulnerable e1.Name v).1 with
    | false => rfl
    | true =>
      obtain ⟨e, he, hve⟩ := (isVulnerable_fst_iff _ _ _).mp hb
      have hee : e2 = e := Option.some.inj (hfind.symm.trans he)
      exact absurd (hee ▸ hve) (by simp [hv2])

/-- Witness for claim C9: two entries named "a"; the index binds "a" to
the later entry and the lookup follows its versions. -/
theorem buildVulnerablePackageMap_last_wins_lookup_witness :
    mapFind (buildVulnerablePackageMap
        ([] ++ (⟨str "a", [str "1.0.0"]⟩ : VulnerablePackage) ::
          [] ++ (⟨str "a", [str "2.0.0"]⟩ : VulnerablePackage) :: []))
      (VulnerablePackage.Name ⟨str "a", [str "1.0.0"]⟩)
      = some ⟨str "a", [str "2.0.0"]⟩ ∧
    ((buildVulnerablePackageMap
        ([] ++ (⟨str "a", [str "1.0.0"]⟩ : VulnerablePackage) ::
          [] ++ (⟨str "a", [str "2.0.0"]⟩ : VulnerablePackage) :: [])).isVulnerable
        (VulnerablePackage.Name ⟨str "a", [str "1.0.0"]⟩) (str "2.0.0")).1
      = isVersionVulnerable (str "2.0.0")
          (VulnerablePackage.Versions ⟨str "a", [str "2.0.0"]⟩) :=
  have h := buildVulnerablePackageMap_last_wins_lookup [] [] []
    ⟨str "a", [str "1.0.0"]⟩ ⟨str "a", [str "2.0.0"]⟩ rfl (by simp) (str "2.0.0")
  ⟨h.1, h.2.1⟩

/-- Claim C10: a non-empty extractor result always starts with an ASCII
digit, and consequently `getActualVersion` either returns the declared
version unchanged or overrides it with a digit-leading string. -/
theorem extractVersionFromResolved_digit_leading :
    (∀ s : GoStr, extractVersionFromResolved s ≠ [] →
      isAsciiDigit ((extractVersionFromResolved s).headD ' ') = true) ∧
    (∀ declared resolved : GoStr,
      getActualVersion declared resolved = declared ∨
        isAsciiDigit ((getActualVersion declared resolved).headD ' ') = true) := by
  constructor
  · intro s h
    rcases extract_nil_or_digit s with hnil | ⟨_, hd⟩
    · exact absurd hnil h
    · exact hd
  · intro declared resolved
    show (if extractVersionFromResolved resolved ≠ [] then extractVersionFromResolved resolved
          else declared) = declared ∨
      isAsciiDigit ((if extractVersionFromResolved resolved ≠ [] then
          extractVersionFromResolved resolved else declared).headD ' ') = true
    rcases extract_nil_or_digit resolved with hnil | ⟨hne, hd⟩
    · left
      rw [if_neg (fun hc => hc hnil)]
    · right
      rw [if_pos hne]
      exact hd

/-- Witness for claim C10 at the registry tarball URL. -/
theorem extractVersionFromResolved_digit_leading_witness :
    isAsciiDigit ((extractVersionFromResolved
      (str "https://registry.example.org/@ctrl/tinycolor/-/tinycolor-4.1.1.tgz")).headD ' ')
      = true :=
  extractVersionFromResolved_digit_leading.1
    (str "https://registry.example.org/@ctrl/tinycolor/-/tinycolor-4.1.1.tgz") (by decide)
